import Mathlib

/-!
Verification of the kinship offline-first status pipeline.

Shallow embedding of the status/membership API routes and the service-worker
offline queue, translated from the TypeScript sources:

* status submission / listing endpoint (POST and GET `/api/status`,
  `route-new.ts`, middle document: `bodySchema`, `POST`, `GET`);
* circle membership endpoints (`circles/[circleId]/members/route.ts` `POST`,
  `circles/[circleId]/members/invite/route.ts` `POST`);
* the service worker (`handleStatusPost`, `enqueue`, `flushQueue`, `getAll`,
  `deleteRecord`, `safeReadJson`) backed by an IndexedDB object store keyed
  by `crypto.randomUUID()`;
* the Postgres schema (`supabase/schema.sql`).

Conventions: JavaScript numbers are modelled as rationals (`Rat`);
timestamps as integers (milliseconds); JSON `null`/`undefined` optional
fields as `Option`.  The zod `.uuid()` format check on id strings is not
modelled (ids are plain strings); IndexedDB keys generated by
`crypto.randomUUID()` are modelled as naturals, ordered as IndexedDB orders
string keys (a fixed total order on keys).  Database reads/writes are
modelled as pure state passing; infrastructure failures (Supabase errors)
are out of scope.
-/

namespace Kinship


/-- Status kinds accepted by the zod schema: `z.enum(["safe","help","unknown"])`. -/
inductive StatusKind where
  | safe
  | help
  | unknown
deriving DecidableEq, Repr

/-- Location object of the status body (`bodySchema.location`): `lat` and `lng`
are plain `z.number()` fields with no range refinement; `accuracy` is optional. -/
structure Location where
  lat : Rat
  lng : Rat
  accuracy : Option Rat
deriving DecidableEq, Repr

/-- JSON body of a POST `/api/status` request, as decoded from JSON before zod
validation.  `location` being `null` or absent both collapse to `none`. -/
structure StatusBody where
  userId : String
  circleId : String
  status : StatusKind
  note : Option String
  batteryPct : Option Rat
  location : Option Location
deriving DecidableEq, Repr

/-- JavaScript `String.prototype.trim()`: strip leading and trailing
whitespace (the zod `.trim()` transform on `note`). -/
def jsTrim (s : String) : String :=
  ⟨((s.data.dropWhile Char.isWhitespace).reverse.dropWhile Char.isWhitespace).reverse⟩

/-- Zod check on `note`: `z.string().trim().max(240).optional()` — the length
bound is applied to the trimmed string. -/
def validNote : Option String → Bool
  | none => true
  | some s => (jsTrim s).length ≤ 240

/-- Zod check on `batteryPct`: `z.number().min(0).max(100).optional()`. -/
def validBattery : Option Rat → Bool
  | none => true
  | some q => decide (0 ≤ q) && decide (q ≤ 100)

/-- The `bodySchema.safeParse` of POST `/api/status`: succeeds when the note
and battery checks pass (no constraint is placed on `location`), returning
the payload with the note trimmed. -/
def parseStatusBody (b : StatusBody) : Option StatusBody :=
  if validNote b.note && validBattery b.batteryPct then
    some { b with note := b.note.map jsTrim }
  else
    none

/-- Row of the `profiles` table (`schema.sql`). -/
structure Profile where
  id : String
  phone : Option String
  email : Option String
deriving DecidableEq, Repr

/-- Row of the `circles` table. -/
structure Circle where
  id : String
  ownerId : String
  name : String
deriving DecidableEq, Repr

/-- The `role` column of `circle_members`: `check (role in ('owner','member'))`. -/
inductive Role where
  | owner
  | member
deriving DecidableEq, Repr

/-- Row of the `circle_members` table: `(circle_id, member_id)` with a role. -/
structure CircleMemberRow where
  circleId : String
  memberId : String
  role : Role
deriving DecidableEq, Repr

/-- Row of the `statuses` table. -/
structure StatusRow where
  id : String
  userId : String
  circleId : String
  status : StatusKind
  lat : Option Rat
  lng : Option Rat
  accuracyM : Option Rat
  note : Option String
  batteryPct : Option Rat
  createdAt : Int
deriving DecidableEq, Repr

/-- Server-side database state: the tables the status/membership routes touch.
List order of `statuses` and `circleMembers` is row insertion order. -/
structure ServerState where
  profiles : List Profile
  circles : List Circle
  circleMembers : List CircleMemberRow
  statuses : List StatusRow
deriving DecidableEq, Repr

/-- Membership probe used by both `/api/status` handlers and the member
routes: `select ... .eq("circle_id", c).eq("member_id", u).single()`. -/
def isMember (st : ServerState) (circleId userId : String) : Bool :=
  st.circleMembers.any (fun m => m.circleId == circleId && m.memberId == userId)

/-- Circle lookup `select("owner_id").eq("id", circleId).single()`. -/
def findCircle (st : ServerState) (circleId : String) : Option Circle :=
  st.circles.find? (fun c => c.id == circleId)

/-- Number of rows of a circle within a `circle_members` row list. -/
def memberCountL (l : List CircleMemberRow) (circleId : String) : Nat :=
  (l.filter (fun m => m.circleId == circleId)).length

/-- Number of `circle_members` rows of a circle — what both member routes
count before inserting. -/
def memberCount (st : ServerState) (circleId : String) : Nat :=
  memberCountL st.circleMembers circleId

/-- Profile existence probe `select("id").eq("id", memberId).single()`. -/
def hasProfile (st : ServerState) (userId : String) : Bool :=
  st.profiles.any (fun p => p.id == userId)

/-- JavaScript `x || null` applied to an optional number: `null`, `undefined`
and `0` are falsy and coerce to `null`. -/
def jsNumOrNull : Option Rat → Option Rat
  | none => none
  | some q => if q = 0 then none else some q

/-- JavaScript `x || null` applied to an optional string: `undefined` and the
empty string coerce to `null`. -/
def jsStrOrNull : Option String → Option String
  | none => none
  | some s => if s = "" then none else some s

/-- The `entry` object echoed inside the POST `/api/status` acknowledgement. -/
structure AckEntry where
  id : String
  status : StatusKind
  note : Option String
  updatedAt : Int
  location : Option Location
  batteryPct : Option Rat
deriving DecidableEq, Repr

/-- The acknowledgement POST `/api/status` returns with HTTP 201. -/
structure Ack where
  ackId : String
  receivedAt : Int
  queued : Bool
  statusId : String
  entry : AckEntry
deriving DecidableEq, Repr

/-- Outcome of POST `/api/status`: 400 invalid payload, 403 not a member,
201 created. -/
inductive PostStatusResult where
  | validationError
  | notMember
  | created (ack : Ack)
deriving DecidableEq, Repr

/-- HTTP status code of each POST `/api/status` outcome. -/
def postStatusHttp : PostStatusResult → Nat
  | .validationError => 400
  | .notMember => 403
  | .created _ => 201

/-- POST `/api/status` (`route-new.ts`): zod-validate the body, check circle
membership, insert the status row (falsy fields coerced to null by `|| null`),
and return the acknowledgement echoing the parsed fields.  `newStatusId`,
`ackId` and `now` stand for the database-generated row id, `nanoid()` and the
server clock. -/
def postStatus (st : ServerState) (b : StatusBody) (newStatusId ackId : String)
    (now : Int) : PostStatusResult × ServerState :=
  match parseStatusBody b with
  | none => (.validationError, st)
  | some p =>
    if isMember st p.circleId p.userId then
      let row : StatusRow :=
        { id := newStatusId
          userId := p.userId
          circleId := p.circleId
          status := p.status
          lat := jsNumOrNull (p.location.map Location.lat)
          lng := jsNumOrNull (p.location.map Location.lng)
          accuracyM := jsNumOrNull (p.location.bind Location.accuracy)
          note := jsStrOrNull p.note
          batteryPct := jsNumOrNull p.batteryPct
          createdAt := now }
      let ack : Ack :=
        { ackId := ackId
          receivedAt := now
          queued := false
          statusId := newStatusId
          entry :=
            { id := p.userId
              status := p.status
              note := p.note
              updatedAt := now
              location := p.location
              batteryPct := p.batteryPct } }
      (.created ack, { st with statuses := st.statuses ++ [row] })
    else
      (.notMember, st)

/-- Concrete one-member state used to exercise the status endpoint. -/
def oneMemberState : ServerState :=
  { profiles := [{ id := "u1", phone := none, email := some "u1@example.com" }]
    circles := [{ id := "c1", ownerId := "u1", name := "family" }]
    circleMembers := [{ circleId := "c1", memberId := "u1", role := .owner }]
    statuses := [] }

/-- The spec example submission: status `help` with location `{lat:91, lng:0}`. -/
def lat91Body : StatusBody :=
  { userId := "u1"
    circleId := "c1"
    status := .help
    note := none
    batteryPct := none
    location := some { lat := 91, lng := 0, accuracy := none } }

/-- An over-long note: 241 copies of `a`. -/
def longNoteBody : StatusBody :=
  { userId := "u1"
    circleId := "c1"
    status := .safe
    note := some ⟨List.replicate 241 'a'⟩
    batteryPct := none
    location := none }

/-- Outcome of POST `/api/circles/[circleId]/members` (direct add by the
owner): 404 circle or profile missing, 403 non-owner requester, 400 full or
duplicate, 201 added. -/
inductive AddMemberResult where
  | circleNotFound
  | notOwner
  | circleFull
  | alreadyMember
  | profileNotFound
  | added
deriving DecidableEq, Repr

/-- HTTP status code of each direct-add outcome. -/
def addMemberHttp : AddMemberResult → Nat
  | .circleNotFound => 404
  | .notOwner => 403
  | .circleFull => 400
  | .alreadyMember => 400
  | .profileNotFound => 404
  | .added => 201

/-- POST `/api/circles/[circleId]/members`: look the circle up, require the
requester to be its owner, reject when the circle already holds 5 membership
rows, reject duplicates and unknown profiles, otherwise insert a `member`
row.  (The zod uuid-format parse of the two ids is not modelled.) -/
def addMember (st : ServerState) (circleId memberId requesterId : String) :
    AddMemberResult × ServerState :=
  match findCircle st circleId with
  | none => (.circleNotFound, st)
  | some circ =>
    if circ.ownerId ≠ requesterId then
      (.notOwner, st)
    else if 5 ≤ memberCount st circleId then
      (.circleFull, st)
    else if isMember st circleId memberId then
      (.alreadyMember, st)
    else if ¬ hasProfile st memberId then
      (.profileNotFound, st)
    else
      (.added,
        { st with circleMembers :=
            st.circleMembers ++ [{ circleId := circleId, memberId := memberId, role := .member }] })

/-- Outcome of POST `/api/circles/[circleId]/members/invite`: 404 circle
missing, 400 full or duplicate, 201 added (carrying the resolved or freshly
created profile id). -/
inductive InviteResult where
  | circleNotFound
  | circleFull
  | alreadyMember
  | invited (memberId : String)
deriving DecidableEq, Repr

/-- HTTP status code of each invite outcome. -/
def inviteHttp : InviteResult → Nat
  | .circleNotFound => 404
  | .circleFull => 400
  | .alreadyMember => 400
  | .invited _ => 201

/-- Profile lookup by phone `select("id").eq("phone", phone).single()`. -/
def findProfileByPhone (st : ServerState) (phone : String) : Option Profile :=
  st.profiles.find? (fun p => p.phone == some phone)

/-- POST `/api/circles/[circleId]/members/invite`: look the circle up, reject
when it already holds 5 membership rows (checked before any profile work),
resolve the phone number to a profile or create one (`freshProfileId` stands
for the database-generated id), reject duplicates, otherwise insert a
`member` row.  The route performs no requester/ownership check. -/
def inviteMember (st : ServerState) (circleId phone : String) (email : Option String)
    (freshProfileId : String) : InviteResult × ServerState :=
  match findCircle st circleId with
  | none => (.circleNotFound, st)
  | some _ =>
    if 5 ≤ memberCount st circleId then
      (.circleFull, st)
    else
      let resolved : String × ServerState :=
        match findProfileByPhone st phone with
        | some p => (p.id, st)
        | none =>
          (freshProfileId,
            { st with profiles :=
                st.profiles ++ [{ id := freshProfileId, phone := some phone, email := email }] })
      if isMember resolved.2 circleId resolved.1 then
        (.alreadyMember, resolved.2)
      else
        (.invited resolved.1,
          { resolved.2 with circleMembers :=
              resolved.2.circleMembers ++
                [{ circleId := circleId, memberId := resolved.1, role := .member }] })

/-- Concrete circle at capacity: owner plus four members (5 rows). -/
def fullCircleState : ServerState :=
  { profiles :=
      [⟨"u1", none, none⟩, ⟨"u2", none, none⟩, ⟨"u3", none, none⟩,
        ⟨"u4", none, none⟩, ⟨"u5", none, none⟩, ⟨"u6", none, none⟩]
    circles := [{ id := "c1", ownerId := "u1", name := "family" }]
    circleMembers :=
      [⟨"c1", "u1", .owner⟩, ⟨"c1", "u2", .member⟩, ⟨"c1", "u3", .member⟩,
        ⟨"c1", "u4", .member⟩, ⟨"c1", "u5", .member⟩]
    statuses := [] }

/-- Read phase of one direct-add request, exactly the checks POST
`/api/circles/[circleId]/members` runs before its insert (circle lookup,
owner check, count check, duplicate check, profile check), all evaluated
against the state the request read.  The route runs the count check and the
insert as two separate queries with no transaction, trigger or counting
constraint around them (`schema.sql` declares none), so under concurrency a
second request can run its own read phase between this check and the
insert. -/
def addMemberCheck (st : ServerState) (circleId memberId requesterId : String) : Bool :=
  match findCircle st circleId with
  | none => false
  | some circ =>
      circ.ownerId == requesterId && memberCount st circleId < 5 &&
        !(isMember st circleId memberId) && hasProfile st memberId

/-- Write phase of one direct-add request: the insert the route issues after
its checks passed. -/
def addMemberInsert (st : ServerState) (circleId memberId : String) : ServerState :=
  { st with circleMembers :=
      st.circleMembers ++ [{ circleId := circleId, memberId := memberId, role := .member }] }

/-- Circle with four membership rows and one free slot, plus profiles for
two candidate members. -/
def fourMemberState : ServerState :=
  { profiles :=
      [⟨"u1", none, none⟩, ⟨"u2", none, none⟩, ⟨"u3", none, none⟩,
        ⟨"u4", none, none⟩, ⟨"u5", none, none⟩, ⟨"u6", none, none⟩]
    circles := [{ id := "c1", ownerId := "u1", name := "family" }]
    circleMembers :=
      [⟨"c1", "u1", .owner⟩, ⟨"c1", "u2", .member⟩, ⟨"c1", "u3", .member⟩,
        ⟨"c1", "u4", .member⟩]
    statuses := [] }

/-- Length of the status feed window: 48 hours in milliseconds. -/
def windowMs : Int := 48 * 60 * 60 * 1000

/-- The rows the GET `/api/status` query returns before ordering:
`.eq("circle_id", circleId).gte("created_at", fortyEightHoursAgo)`. -/
def windowRows (st : ServerState) (circleId : String) (now : Int) : List StatusRow :=
  st.statuses.filter (fun row => row.circleId == circleId && decide (now - windowMs ≤ row.createdAt))

/-- Row ordering of `.order("created_at", { ascending: false })`: a row comes
before rows with an equal or smaller creation timestamp. -/
def StatusRow.laterEq (a b : StatusRow) : Prop := b.createdAt ≤ a.createdAt

instance : DecidableRel StatusRow.laterEq :=
  fun a b => Int.decLe b.createdAt a.createdAt

instance : IsTotal StatusRow StatusRow.laterEq :=
  ⟨fun a b => Int.le_total b.createdAt a.createdAt⟩

instance : IsTrans StatusRow StatusRow.laterEq :=
  ⟨fun _ _ _ h1 h2 => Int.le_trans h2 h1⟩

/-- The window rows as the database hands them to the handler: ordered by
`created_at` descending. -/
def sortedWindow (st : ServerState) (circleId : String) (now : Int) : List StatusRow :=
  List.insertionSort StatusRow.laterEq (windowRows st circleId now)

/-- The `latestByUser` map-building pass of GET `/api/status`: walk the rows
in the order the query returned them and keep only the first row seen for
each `user_id` (`if (!latestByUser.has(status.user_id)) set(...)`), carrying
the set of user ids already seen. -/
def latestByUser (seen : List String) : List StatusRow → List StatusRow
  | [] => []
  | row :: rest =>
    if row.userId ∈ seen then latestByUser seen rest
    else row :: latestByUser (row.userId :: seen) rest

/-- JavaScript truthiness of a nullable numeric column: present and nonzero. -/
def jsTruthyNum : Option Rat → Bool
  | none => false
  | some q => decide (q ≠ 0)

/-- The display name `status.profiles?.email?.split("@")[0] || "Unknown"`. -/
def displayName : Option String → String
  | none => "Unknown"
  | some e =>
    let localpart : String := ⟨e.data.takeWhile (fun ch => ch ≠ '@')⟩
    if localpart = "" then "Unknown" else localpart

/-- Profile lookup by id (the `profiles` join of the status query). -/
def findProfile (st : ServerState) (userId : String) : Option Profile :=
  st.profiles.find? (fun p => p.id == userId)

/-- One entry of the `{circle: Entry[]}` response of GET `/api/status`. -/
structure FeedEntry where
  id : String
  name : String
  email : Option String
  status : StatusKind
  updatedAt : Int
  note : Option String
  location : Option Location
  batteryPct : Option Rat
  isYou : Bool
deriving DecidableEq, Repr

/-- Response formatting of GET `/api/status` for one kept row: `id` is the
poster's user id, `location` is rebuilt only when `status.lat && status.lng`
are truthy, `isYou` compares against the requesting user. -/
def toFeedEntry (st : ServerState) (requesterId : String) (row : StatusRow) : FeedEntry :=
  let email := (findProfile st row.userId).bind Profile.email
  { id := row.userId
    name := displayName email
    email := email
    status := row.status
    updatedAt := row.createdAt
    note := row.note
    location :=
      if jsTruthyNum row.lat && jsTruthyNum row.lng then
        some { lat := row.lat.getD 0, lng := row.lng.getD 0, accuracy := row.accuracyM }
      else none
    batteryPct := row.batteryPct
    isYou := row.userId == requesterId }

/-- The feed GET `/api/status` computes for a member: latest-per-user pass
over the 48-hour window rows in descending creation order, then formatting. -/
def feedFor (st : ServerState) (circleId userId : String) (now : Int) : List FeedEntry :=
  (latestByUser [] (sortedWindow st circleId now)).map (toFeedEntry st userId)

/-- Outcome of GET `/api/status`: 403 for non-members, 200 with the feed. -/
inductive ListStatusesResult where
  | notMember
  | ok (circle : List FeedEntry)
deriving DecidableEq, Repr

/-- GET `/api/status`: verify the requester's membership, then return the
latest-per-user feed of the trailing 48-hour window. -/
def listStatuses (st : ServerState) (circleId userId : String) (now : Int) :
    ListStatusesResult :=
  if isMember st circleId userId then .ok (feedFor st circleId userId now)
  else .notMember

/-- Concrete feed state: requester `u1`, and `u2` posted twice (t=1, t=5). -/
def feedState : ServerState :=
  { profiles := [⟨"u1", none, some "u1@example.com"⟩, ⟨"u2", none, some "u2@example.com"⟩]
    circles := [{ id := "c1", ownerId := "u1", name := "family" }]
    circleMembers := [⟨"c1", "u1", .owner⟩, ⟨"c1", "u2", .member⟩]
    statuses :=
      [{ id := "s1", userId := "u2", circleId := "c1", status := .safe, lat := none,
         lng := none, accuracyM := none, note := none, batteryPct := none, createdAt := 1 },
       { id := "s2", userId := "u2", circleId := "c1", status := .help, lat := none,
         lng := none, accuracyM := none, note := none, batteryPct := none, createdAt := 5 }] }

/-- One record of the `kinship-status-queue` IndexedDB object store (keyPath
`id`): the queued submission's parsed JSON body (`null` when the request body
was not JSON — `safeReadJson`), its target url, and `Date.now()` at enqueue
time.  The `crypto.randomUUID()` string key is modelled as a natural number;
IndexedDB orders string keys by a fixed total order (code-unit comparison),
modelled by the order on the naturals. -/
structure QueueRecord where
  id : Nat
  body : Option StatusBody
  url : String
  createdAt : Int
deriving DecidableEq, Repr

/-- The object store contents, listed in the order the records were written. -/
abbrev QueueStore := List QueueRecord

/-- IndexedDB `store.put`: replace the record holding the same key, else add. -/
def idbPut (r : QueueRecord) (s : QueueStore) : QueueStore :=
  if s.any (fun x => x.id == r.id) then
    s.map (fun x => if x.id == r.id then r else x)
  else
    s ++ [r]

/-- Ascending key order on queue records. -/
def QueueRecord.keyLe (a b : QueueRecord) : Prop := a.id ≤ b.id

instance : DecidableRel QueueRecord.keyLe :=
  fun a b => Nat.decLe a.id b.id

instance : IsTotal QueueRecord QueueRecord.keyLe :=
  ⟨fun a b => Nat.le_total a.id b.id⟩

instance : IsTrans QueueRecord QueueRecord.keyLe :=
  ⟨fun _ _ _ => Nat.le_trans⟩

/-- IndexedDB `store.getAll()` (the service worker's `getAll`): all records,
sorted ascending by key — not by insertion time. -/
def idbGetAll (s : QueueStore) : List QueueRecord :=
  List.insertionSort QueueRecord.keyLe s

/-- IndexedDB `store.delete(id)` (the service worker's `deleteRecord`):
remove the record with the given key; a no-op when the key is absent. -/
def idbDelete (id : Nat) (s : QueueStore) : QueueStore :=
  s.filter (fun x => x.id != id)

/-- The service worker's `enqueue(body, url)`: put a record with a freshly
generated key and the current time. -/
def enqueue (body : Option StatusBody) (url : String) (freshId : Nat) (now : Int)
    (s : QueueStore) : QueueStore :=
  idbPut { id := freshId, body := body, url := url, createdAt := now } s

/-- Body of a JSON response, as the shallow shape of the object's fields:
`none` marks an absent field. -/
structure RespBody where
  ackId : Option String
  receivedAt : Option Int
  queued : Option Bool
  statusId : Option String
  entry : Option AckEntry
  errorMsg : Option String
deriving DecidableEq, Repr

/-- An HTTP response the client observes. -/
structure HttpResp where
  status : Nat
  body : RespBody
deriving DecidableEq, Repr

/-- Outcome of one `fetch`: the server answered (with any status code), or
the promise rejected — genuine network unreachability. -/
inductive FetchOutcome where
  | resp (r : HttpResp)
  | netFail
deriving DecidableEq, Repr

/-- `Response.ok`: status in the 2xx range. -/
def respOk (r : HttpResp) : Bool := decide (200 ≤ r.status) && decide (r.status < 300)

/-- The body of the synthetic response the service worker fabricates when a
status POST cannot be delivered: `JSON.stringify({ queued: true })` — only
the `queued` flag, no other field. -/
def syntheticQueuedBody : RespBody :=
  { ackId := none, receivedAt := none, queued := some true, statusId := none,
    entry := none, errorMsg := none }

/-- The service worker's `handleStatusPost`: try the live fetch; on any
server response return it unmodified; on network failure enqueue the parsed
request body with its target url and answer `202 {queued:true}`. -/
def handleStatusPost (net : FetchOutcome) (reqBody : Option StatusBody) (reqUrl : String)
    (freshId : Nat) (now : Int) (s : QueueStore) : HttpResp × QueueStore :=
  match net with
  | .resp r => (r, s)
  | .netFail => (⟨202, syntheticQueuedBody⟩, enqueue reqBody reqUrl freshId now s)

/-- One step of the service worker's `flushQueue` loop on one record: record
the redelivery attempt (original url, original body), then delete the record
exactly when the response was 2xx (`res.ok`); a rejected fetch leaves the
record and the loop continues with the rest. -/
def flushStep (deliver : QueueRecord → FetchOutcome)
    (acc : QueueStore × List (String × Option StatusBody)) (r : QueueRecord) :
    QueueStore × List (String × Option StatusBody) :=
  match deliver r with
  | .resp resp =>
      if respOk resp then (idbDelete r.id acc.1, acc.2 ++ [(r.url, r.body)])
      else (acc.1, acc.2 ++ [(r.url, r.body)])
  | .netFail => (acc.1, acc.2 ++ [(r.url, r.body)])

/-- The service worker's `flushQueue`: iterate over `getAll()` (key order),
POSTing each record's body to its url; returns the remaining store and the
list of redelivery attempts made, in order. -/
def flushQueue (deliver : QueueRecord → FetchOutcome) (s : QueueStore) :
    QueueStore × List (String × Option StatusBody) :=
  (idbGetAll s).foldl (flushStep deliver) (s, [])

/-- Whether one record's redelivery got a 2xx response. -/
def deliveredOk (deliver : QueueRecord → FetchOutcome) (r : QueueRecord) : Bool :=
  match deliver r with
  | .resp resp => respOk resp
  | .netFail => false

/-- Records enqueued first but keyed later: `outOfOrderStore` enqueues key 2
at time 1, then key 1 at time 2. -/
def outOfOrderStore : QueueStore :=
  enqueue none "/api/status" 1 2 (enqueue none "/api/status" 2 1 [])

/-- The server acknowledgement rendered as a JSON response body shape. -/
def Ack.toRespBody (a : Ack) : RespBody :=
  { ackId := some a.ackId
    receivedAt := some a.receivedAt
    queued := some a.queued
    statusId := some a.statusId
    entry := some a.entry
    errorMsg := none }

/-- The acknowledgement shape `{ackId, receivedAt, queued, statusId?, entry}`:
all the required fields are present (`statusId` is optional). -/
def isAckShape (b : RespBody) : Bool :=
  b.ackId.isSome && b.receivedAt.isSome && b.queued.isSome && b.entry.isSome

/-- Two queued records with distinct keys on which one delivery succeeds and
one fails. -/
def twoRecordStore : QueueStore :=
  [{ id := 1, body := none, url := "/api/status", createdAt := 1 },
   { id := 2, body := some lat91Body, url := "/api/status", createdAt := 2 }]

/-- Delivery oracle for the witness: record 1 gets HTTP 201, record 2 is
unreachable. -/
def mixedDeliver (r : QueueRecord) : FetchOutcome :=
  if r.id = 1 then .resp ⟨201, syntheticQueuedBody⟩ else .netFail

/-- A submission whose optional fields are all falsy: battery 0, latitude
and longitude 0, and a whitespace-only note. -/
def falsyBody : StatusBody :=
  { userId := "u1"
    circleId := "c1"
    status := .safe
    note := some " "
    batteryPct := some 0
    location := some { lat := 0, lng := 0, accuracy := none } }

/-- The acknowledgement the falsy submission gets from the one-member state. -/
def falsyAck : Ack :=
  match (postStatus oneMemberState falsyBody "s9" "a9" 7).1 with
  | .created a => a
  | _ => ⟨"", 0, false, "", ⟨"", .safe, none, 0, none, none⟩⟩

/-- C1 (counterexample): the submission `{status:"help", location:{lat:91,lng:0}}`
from a circle member is NOT rejected: the zod schema places no range bound on
`lat`/`lng`, so the handler answers 201 and appends a Status row; the claim
that it fails with a `ValidationError` (HTTP 400) with no row appended is
false on the code. -/
theorem C1_latitude_not_validated_counterexample :
    (postStatus oneMemberState lat91Body "s1" "a1" 0).1 ≠ .validationError ∧
    postStatusHttp (postStatus oneMemberState lat91Body "s1" "a1" 0).1 = 201 ∧
    (postStatus oneMemberState lat91Body "s1" "a1" 0).2.statuses.length =
      oneMemberState.statuses.length + 1 := by
  decide

/-- C1 (amended): POST `/api/status` fails with a `ValidationError` (HTTP 400)
exactly when the trimmed note exceeds 240 characters or the battery percent is
outside [0,100]; location components are not range-checked, so an out-of-range
latitude or longitude is never by itself rejected.  On a validation failure no
Status row is appended (the state is unchanged). -/
theorem C1_validation_scope (st : ServerState) (b : StatusBody) (sid aid : String)
    (now : Int) :
    ((postStatus st b sid aid now).1 = .validationError ↔
      ¬ (validNote b.note = true ∧ validBattery b.batteryPct = true)) ∧
    ((postStatus st b sid aid now).1 = .validationError →
      (postStatus st b sid aid now).2 = st) := by
  unfold postStatus parseStatusBody
  by_cases h1 : validNote b.note = true <;> by_cases h2 : validBattery b.batteryPct = true
  · simp only [h1, h2, Bool.and_self, if_true, not_true, and_self, not_and]
    constructor
    · split <;> simp
    · split <;> simp
  · simp [h1, h2]
  · simp [h1, h2]
  · simp [h1, h2]

set_option maxRecDepth 4000 in
/-- C1 (witness): at the over-long-note submission the amended theorem yields
a `ValidationError` with the state unchanged. -/
theorem C1_validation_scope_witness :
    (postStatus oneMemberState longNoteBody "s1" "a1" 0).1 = .validationError ∧
    (postStatus oneMemberState longNoteBody "s1" "a1" 0).2 = oneMemberState := by
  have h := C1_validation_scope oneMemberState longNoteBody "s1" "a1" 0
  have hv : (postStatus oneMemberState longNoteBody "s1" "a1" 0).1 = .validationError :=
    h.1.mpr (by decide)
  exact ⟨hv, h.2 hv⟩

/-- Appending one membership row raises the count of its circle by one and
leaves every other circle's count unchanged. -/
theorem memberCountL_append (l : List CircleMemberRow) (m : CircleMemberRow) (c : String) :
    memberCountL (l ++ [m]) c =
      memberCountL l c + (if m.circleId == c then 1 else 0) := by
  unfold memberCountL
  simp only [List.filter_append, List.length_append]
  cases h : (m.circleId == c) <;> simp [List.filter, h]

/-- State characterization of the direct add: either the state is unchanged,
or the count was below 5 and exactly the one new `member` row was appended. -/
theorem addMember_snd (st : ServerState) (c m r : String) :
    (addMember st c m r).2 = st ∨
    (memberCount st c < 5 ∧
      (addMember st c m r).2.circleMembers =
        st.circleMembers ++ [{ circleId := c, memberId := m, role := .member }]) := by
  unfold addMember
  cases hc : findCircle st c
  · exact Or.inl rfl
  · simp only
    split_ifs with h1 h2 h3 h4
    · exact Or.inl rfl
    · exact Or.inl rfl
    · exact Or.inl rfl
    · exact Or.inr ⟨by omega, rfl⟩
    · exact Or.inl rfl

/-- State characterization of the invite: either the membership table is
unchanged, or the count was below 5 and exactly one new `member` row was
appended. -/
theorem inviteMember_snd (st : ServerState) (c phone : String) (email : Option String)
    (fid : String) :
    (inviteMember st c phone email fid).2.circleMembers = st.circleMembers ∨
    (memberCount st c < 5 ∧ ∃ mid,
      (inviteMember st c phone email fid).2.circleMembers =
        st.circleMembers ++ [{ circleId := c, memberId := mid, role := .member }]) := by
  unfold inviteMember
  cases hc : findCircle st c
  · exact Or.inl rfl
  · simp only
    split_ifs with h1 h2
    · exact Or.inl rfl
    · rcases hp : findProfileByPhone st phone with _ | p <;> simp [hp]
    · refine Or.inr ⟨by omega, ?_⟩
      rcases hp : findProfileByPhone st phone with _ | p
      · exact ⟨fid, by simp [hp]⟩
      · exact ⟨p.id, by simp [hp]⟩

/-- C2: when a circle already holds at least 5 membership rows (owner
included), a direct owner add answers `CircleFull` (HTTP 400) with no row
inserted, an invite-by-contact answers `CircleFull` (HTTP 400) with no state
change, and both operations preserve the at-most-5 invariant: starting from
a circle at or below 5 rows, neither operation can leave it above 5. -/
theorem C2_circle_full_cap (st : ServerState) (c m r phone fid : String)
    (email : Option String) :
    (∀ circ, findCircle st c = some circ → circ.ownerId = r → 5 ≤ memberCount st c →
      (addMember st c m r).1 = .circleFull ∧ (addMember st c m r).2 = st) ∧
    ((findCircle st c).isSome → 5 ≤ memberCount st c →
      (inviteMember st c phone email fid).1 = .circleFull ∧
      (inviteMember st c phone email fid).2 = st) ∧
    addMemberHttp .circleFull = 400 ∧ inviteHttp .circleFull = 400 ∧
    (memberCount st c ≤ 5 → memberCount (addMember st c m r).2 c ≤ 5) ∧
    (memberCount st c ≤ 5 → memberCount (inviteMember st c phone email fid).2 c ≤ 5) := by
  refine ⟨?_, ?_, rfl, rfl, ?_, ?_⟩
  · intro circ hc hro hfull
    unfold addMember
    rw [hc]
    simp [hro, hfull]
  · intro hsome hfull
    obtain ⟨circ, hc⟩ := Option.isSome_iff_exists.mp hsome
    unfold inviteMember
    rw [hc]
    simp [hfull]
  · intro hle
    rcases addMember_snd st c m r with h | ⟨hlt, hmem⟩
    · rw [h]
      exact hle
    · unfold memberCount at hlt ⊢
      rw [hmem, memberCountL_append]
      split <;> omega
  · intro hle
    rcases inviteMember_snd st c phone email fid with h | ⟨hlt, mid, hmem⟩
    · unfold memberCount at hle ⊢
      rw [h]
      exact hle
    · unfold memberCount at hlt ⊢
      rw [hmem, memberCountL_append]
      split <;> omega

/-- C2 (witness): on the concrete circle at 5 rows, both the direct add and
the invite answer `CircleFull` and leave the state untouched. -/
theorem C2_circle_full_cap_witness :
    (addMember fullCircleState "c1" "u6" "u1").1 = .circleFull ∧
    (addMember fullCircleState "c1" "u6" "u1").2 = fullCircleState ∧
    (inviteMember fullCircleState "c1" "+254700000006" none "p9").1 = .circleFull ∧
    (inviteMember fullCircleState "c1" "+254700000006" none "p9").2 = fullCircleState ∧
    memberCount (addMember fullCircleState "c1" "u6" "u1").2 "c1" ≤ 5 := by
  have h := C2_circle_full_cap fullCircleState "c1" "u6" "u1" "+254700000006" "p9" none
  obtain ⟨h1, h2, _, _, h5, _⟩ := h
  have ha := h1 { id := "c1", ownerId := "u1", name := "family" } (by decide) (by decide) (by decide)
  have hb := h2 (by decide) (by decide)
  exact ⟨ha.1, ha.2, hb.1, hb.2, h5 (by decide)⟩

/-- The decomposition agrees with the sequential handler: a direct add
succeeds exactly when its read phase (against the same state) passes, and
then performs exactly the write phase. -/
theorem addMember_check_insert (st : ServerState) (c m r : String) :
    (addMemberCheck st c m r = true ↔ (addMember st c m r).1 = .added) ∧
    (addMemberCheck st c m r = true →
      (addMember st c m r).2 = addMemberInsert st c m) := by
  unfold addMemberCheck addMember addMemberInsert
  cases hc : findCircle st c
  · simp
  · simp only [Bool.and_assoc, Bool.and_eq_true, beq_iff_eq, decide_eq_true_eq,
      Bool.not_eq_true']
    constructor
    · constructor
      · rintro ⟨h1, h2, h3, h4⟩
        simp [h1, h3, h4, Nat.not_le.mpr h2]
      · intro h
        by_contra hno
        revert h
        split_ifs with g1 g2 g3 g4 <;> simp_all
    · rintro ⟨h1, h2, h3, h4⟩
      simp [h1, h3, h4, Nat.not_le.mpr h2]

/-- C9: the membership-cap check-then-insert is NOT atomic.  On a circle with
4 membership rows, each of two racing adds (distinct new members, requested
by the owner) passes its read phase against the initial state; sequentially
the second add would get `CircleFull`, but the interleaving
check₁‚check₂‚insert₁‚insert₂ — which nothing in the route or the schema
excludes — admits both, leaving 6 membership rows in the circle. -/
theorem C9_race_admits_sixth_member :
    (addMember fourMemberState "c1" "u5" "u1").1 = .added ∧
    (addMember fourMemberState "c1" "u6" "u1").1 = .added ∧
    (addMember (addMember fourMemberState "c1" "u5" "u1").2 "c1" "u6" "u1").1 = .circleFull ∧
    addMemberCheck fourMemberState "c1" "u5" "u1" = true ∧
    addMemberCheck fourMemberState "c1" "u6" "u1" = true ∧
    memberCount
      (addMemberInsert (addMemberInsert fourMemberState "c1" "u5") "c1" "u6") "c1" = 6 := by
  decide

/-- Every row the latest-per-user pass keeps comes from the input and its
user was not among the already-seen ids. -/
theorem latestByUser_subset (seen : List String) (l : List StatusRow) :
    ∀ x ∈ latestByUser seen l, x ∈ l ∧ x.userId ∉ seen := by
  induction l generalizing seen with
  | nil => simp [latestByUser]
  | cons r rest ih =>
    intro x hx
    by_cases hs : r.userId ∈ seen
    · simp only [latestByUser, if_pos hs] at hx
      obtain ⟨h1, h2⟩ := ih seen x hx
      exact ⟨List.mem_cons_of_mem _ h1, h2⟩
    · simp only [latestByUser, if_neg hs] at hx
      rcases List.mem_cons.mp hx with rfl | hx2
      · exact ⟨List.mem_cons_self _ _, hs⟩
      · obtain ⟨h1, h2⟩ := ih (r.userId :: seen) x hx2
        exact ⟨List.mem_cons_of_mem _ h1, fun hin => h2 (List.mem_cons_of_mem _ hin)⟩

/-- The latest-per-user pass emits each user id at most once. -/
theorem latestByUser_nodup (seen : List String) (l : List StatusRow) :
    ((latestByUser seen l).map StatusRow.userId).Nodup := by
  induction l generalizing seen with
  | nil => simp [latestByUser]
  | cons r rest ih =>
    by_cases hs : r.userId ∈ seen
    · simpa [latestByUser, hs] using ih seen
    · simp only [latestByUser, if_neg hs, List.map_cons, List.nodup_cons]
      refine ⟨fun hmem => ?_, ih _⟩
      obtain ⟨x, hx, hxeq⟩ := List.mem_map.mp hmem
      have hnot := (latestByUser_subset _ _ x hx).2
      exact hnot (by rw [hxeq]; exact List.mem_cons_self _ _)

/-- Every user with an unseen row in the input keeps a row in the output. -/
theorem latestByUser_covers (seen : List String) (l : List StatusRow) (u : String)
    (hu : u ∉ seen) (hex : ∃ x ∈ l, x.userId = u) :
    ∃ x ∈ latestByUser seen l, x.userId = u := by
  induction l generalizing seen with
  | nil => simp at hex
  | cons r rest ih =>
    by_cases hs : r.userId ∈ seen
    · obtain ⟨x, hx, hxu⟩ := hex
      rcases List.mem_cons.mp hx with rfl | hx2
      · exact absurd (hxu ▸ hs) hu
      · simpa [latestByUser, hs] using ih seen hu ⟨x, hx2, hxu⟩
    · by_cases hru : r.userId = u
      · exact ⟨r, by simp [latestByUser, hs], hru⟩
      · obtain ⟨x, hx, hxu⟩ := hex
        rcases List.mem_cons.mp hx with rfl | hx2
        · exact absurd hxu hru
        · have hu2 : u ∉ r.userId :: seen := by
            simp only [List.mem_cons]
            rintro (rfl | hin)
            · exact hru rfl
            · exact hu hin
          obtain ⟨y, hy, hyu⟩ := ih (r.userId :: seen) hu2 ⟨x, hx2, hxu⟩
          refine ⟨y, ?_, hyu⟩
          simp only [latestByUser, if_neg hs]
          exact List.mem_cons_of_mem _ hy

/-- On rows sorted by creation time descending, each row the latest-per-user
pass keeps has the greatest creation time among its user's input rows. -/
theorem latestByUser_max (seen : List String) (l : List StatusRow)
    (hsort : l.Sorted StatusRow.laterEq) :
    ∀ x ∈ latestByUser seen l, ∀ y ∈ l, y.userId = x.userId →
      y.createdAt ≤ x.createdAt := by
  induction l generalizing seen with
  | nil => simp
  | cons r rest ih =>
    have hsr : rest.Sorted StatusRow.laterEq := (List.sorted_cons.mp hsort).2
    intro x hx y hy hyx
    by_cases hs : r.userId ∈ seen
    · simp only [latestByUser, if_pos hs] at hx
      rcases List.mem_cons.mp hy with rfl | hy2
      · have hnot := (latestByUser_subset seen rest x hx).2
        exact absurd (hyx ▸ hs) hnot
      · exact ih seen hsr x hx y hy2 hyx
    · simp only [latestByUser, if_neg hs] at hx
      rcases List.mem_cons.mp hx with rfl | hx2
      · rcases List.mem_cons.mp hy with rfl | hy2
        · exact le_refl _
        · exact (List.sorted_cons.mp hsort).1 y hy2
      · rcases List.mem_cons.mp hy with rfl | hy2
        · have hnot := (latestByUser_subset _ _ x hx2).2
          have hin : x.userId ∈ y.userId :: seen := by
            rw [← hyx]
            exact List.mem_cons_self _ _
          exact absurd hin hnot
        · exact ih _ hsr x hx2 y hy2 hyx

/-- The entry ids of a feed are exactly the user ids the latest-per-user pass
kept. -/
theorem feedFor_ids (st : ServerState) (c u : String) (now : Int) :
    (feedFor st c u now).map FeedEntry.id =
      (latestByUser [] (sortedWindow st c now)).map StatusRow.userId := by
  simp only [feedFor, List.map_map]
  rfl

/-- Sorted-window rows and window rows contain the same rows. -/
theorem mem_sortedWindow (st : ServerState) (c : String) (now : Int) (row : StatusRow) :
    row ∈ sortedWindow st c now ↔ row ∈ windowRows st c now :=
  (List.perm_insertionSort StatusRow.laterEq (windowRows st c now)).mem_iff

/-- C5: for a requesting member, GET `/api/status` returns at most one entry
per user; each entry is backed by a row of that user in the 48-hour window
whose creation time is greatest among that user's window rows (and the entry
carries that time); and a user has an entry exactly when they have a row in
the window. -/
theorem C5_latest_status_per_user (st : ServerState) (c u : String) (now : Int)
    (h : isMember st c u = true) :
    listStatuses st c u now = .ok (feedFor st c u now) ∧
    ((feedFor st c u now).map FeedEntry.id).Nodup ∧
    (∀ e ∈ feedFor st c u now, ∃ row ∈ windowRows st c now,
      row.userId = e.id ∧ e.updatedAt = row.createdAt ∧
      ∀ other ∈ windowRows st c now, other.userId = e.id →
        other.createdAt ≤ e.updatedAt) ∧
    (∀ w : String, (∃ row ∈ windowRows st c now, row.userId = w) ↔
      ∃ e ∈ feedFor st c u now, e.id = w) := by
  have hsort : (sortedWindow st c now).Sorted StatusRow.laterEq :=
    List.sorted_insertionSort StatusRow.laterEq (windowRows st c now)
  refine ⟨by simp [listStatuses, h], ?_, ?_, ?_⟩
  · rw [feedFor_ids]
    exact latestByUser_nodup [] _
  · intro e he
    obtain ⟨row, hrow, rfl⟩ := List.mem_map.mp he
    refine ⟨row, ?_, rfl, rfl, ?_⟩
    · exact (mem_sortedWindow st c now row).mp (latestByUser_subset [] _ row hrow).1
    · intro other hother hoid
      exact latestByUser_max [] _ hsort row hrow other
        ((mem_sortedWindow st c now other).mpr hother) hoid
  · intro w
    constructor
    · rintro ⟨row, hrow, hwid⟩
      obtain ⟨x, hx, hxu⟩ := latestByUser_covers [] (sortedWindow st c now) w
        (by simp) ⟨row, (mem_sortedWindow st c now row).mpr hrow, hwid⟩
      exact ⟨toFeedEntry st u x, List.mem_map_of_mem _ hx, hxu⟩
    · rintro ⟨e, he, hew⟩
      obtain ⟨row, hrow, rfl⟩ := List.mem_map.mp he
      exact ⟨row, (mem_sortedWindow st c now row).mp
        (latestByUser_subset [] _ row hrow).1, hew⟩

/-- C5 (witness): on the concrete feed state the listing succeeds for the
member `u1` and returns exactly one entry — `u2` with the later timestamp. -/
theorem C5_latest_status_per_user_witness :
    listStatuses feedState "c1" "u1" windowMs = .ok (feedFor feedState "c1" "u1" windowMs) ∧
    ((feedFor feedState "c1" "u1" windowMs).map FeedEntry.id).Nodup ∧
    (feedFor feedState "c1" "u1" windowMs).map (fun e => (e.id, e.updatedAt)) =
      [("u2", 5)] := by
  have h := C5_latest_status_per_user feedState "c1" "u1" windowMs (by decide)
  exact ⟨h.1, h.2.1, by decide⟩

/-- Attempt accumulation of one flush pass: every record of the iterated
list contributes exactly one redelivery attempt carrying its url and body,
in list order, whatever each delivery's outcome. -/
theorem flush_attempts_aux (deliver : QueueRecord → FetchOutcome) (l : List QueueRecord)
    (acc : QueueStore × List (String × Option StatusBody)) :
    (l.foldl (flushStep deliver) acc).2 = acc.2 ++ l.map (fun r => (r.url, r.body)) := by
  induction l generalizing acc with
  | nil => simp
  | cons r rest ih =>
    have hstep : (flushStep deliver acc r).2 = acc.2 ++ [(r.url, r.body)] := by
      unfold flushStep
      cases deliver r with
      | resp resp => by_cases h : respOk resp = true <;> simp [h]
      | netFail => rfl
    simp only [List.foldl_cons, List.map_cons]
    rw [ih, hstep]
    simp

/-- Store evolution of one flush pass: starting from any store, the pass
removes exactly the records whose key matches some successfully redelivered
record of the iterated list. -/
theorem flush_store_aux (deliver : QueueRecord → FetchOutcome) (l : List QueueRecord)
    (acc : QueueStore × List (String × Option StatusBody)) :
    (l.foldl (flushStep deliver) acc).1 =
      acc.1.filter (fun x => !(l.any (fun r => deliveredOk deliver r && r.id == x.id))) := by
  induction l generalizing acc with
  | nil => simp
  | cons r rest ih =>
    have hstep : (flushStep deliver acc r).1 =
        if deliveredOk deliver r then idbDelete r.id acc.1 else acc.1 := by
      unfold flushStep deliveredOk
      cases deliver r with
      | resp resp => by_cases h : respOk resp = true <;> simp [h]
      | netFail => rfl
    simp only [List.foldl_cons]
    rw [ih, hstep]
    by_cases hok : deliveredOk deliver r = true
    · simp only [hok, if_true, idbDelete, List.filter_filter]
      apply List.filter_congr
      intro x _
      simp only [List.any_cons, hok, Bool.true_and, Bool.not_or]
      by_cases hxr : x.id = r.id
      · simp [hxr, bne]
      · have h1 : (r.id == x.id) = false := by
          simp [Ne.symm hxr]
        have h2 : (x.id != r.id) = true := by
          simp [bne, hxr]
        cases rest.any (fun q => deliveredOk deliver q && q.id == x.id) <;> simp [h1, h2]
    · simp only [hok, if_false]
      apply List.filter_congr
      intro x _
      simp [List.any_cons, hok]

/-- A put record is always present in the store afterwards (fresh key: it is
appended; existing key: it overwrites in place). -/
theorem mem_idbPut_self (r : QueueRecord) (s : QueueStore) : r ∈ idbPut r s := by
  unfold idbPut
  by_cases h : s.any (fun x => x.id == r.id) = true
  · rw [if_pos h]
    obtain ⟨x, hx, hxe⟩ := List.any_eq_true.mp h
    have : (if x.id == r.id then r else x) ∈ s.map (fun x => if x.id == r.id then r else x) :=
      List.mem_map_of_mem _ hx
    rwa [if_pos hxe] at this
  · rw [if_neg h]
    simp

/-- C3 (counterexample): `getAll` on the two-record store returns the
records in key order — creation times `[2, 1]` — although they were enqueued
in creation-time order `[1, 2]`; so drainAll/getAll is NOT sorted by enqueue
time, and a replay pass does not attempt redelivery in insertion order. -/
theorem C3_insertion_order_counterexample :
    outOfOrderStore.map QueueRecord.createdAt = [1, 2] ∧
    (idbGetAll outOfOrderStore).map QueueRecord.createdAt = [2, 1] ∧
    idbGetAll outOfOrderStore ≠ outOfOrderStore ∧
    ¬ List.Sorted (fun a b : QueueRecord => a.createdAt ≤ b.createdAt)
        (idbGetAll outOfOrderStore) := by
  decide

/-- C3 (amended): a replay pass iterates over `getAll()`, which returns all
queued records sorted by their store key (the randomly generated record id),
not by enqueue time; it attempts redelivery of every queued record exactly
once, in that key order, each to its original target url with its original
body. -/
theorem C3_replay_key_order (s : QueueStore) (deliver : QueueRecord → FetchOutcome) :
    List.Sorted QueueRecord.keyLe (idbGetAll s) ∧
    (idbGetAll s).Perm s ∧
    (flushQueue deliver s).2 = (idbGetAll s).map (fun r => (r.url, r.body)) := by
  refine ⟨List.sorted_insertionSort _ _, List.perm_insertionSort _ _, ?_⟩
  unfold flushQueue
  rw [flush_attempts_aux]
  simp

/-- C4 (counterexample): the synthetic response the service worker returns
for an undeliverable status POST has HTTP 202 and `queued: true`, but its
body is only `{queued: true}` — it carries no `ackId`, `receivedAt` or
`entry`, so it does NOT structurally match the server acknowledgement shape
`{ackId, receivedAt, queued, statusId?, entry}`. -/
theorem C4_shape_mismatch_counterexample :
    (handleStatusPost .netFail (some lat91Body) "/api/status" 1 0 []).1.status = 202 ∧
    (handleStatusPost .netFail (some lat91Body) "/api/status" 1 0 []).1.body.queued =
      some true ∧
    isAckShape (handleStatusPost .netFail (some lat91Body) "/api/status" 1 0 []).1.body =
      false ∧
    (handleStatusPost .netFail (some lat91Body) "/api/status" 1 0 []).1.body.ackId = none := by
  decide

/-- C4 (amended): the synthetic "accepted, queued" response always has HTTP
status 202 and body exactly `{queued: true}`; it carries the `queued: true`
flag but no `ackId`, `receivedAt` or `entry`, while every server
acknowledgement satisfies the full shape — so the two success paths ARE
distinguishable by shape. -/
theorem C4_synthetic_queued_shape (reqBody : Option StatusBody) (url : String)
    (fid : Nat) (now : Int) (s : QueueStore) :
    (handleStatusPost .netFail reqBody url fid now s).1 = ⟨202, syntheticQueuedBody⟩ ∧
    syntheticQueuedBody.queued = some true ∧
    isAckShape syntheticQueuedBody = false ∧
    (∀ a : Ack, isAckShape a.toRespBody = true) ∧
    (∀ a : Ack, syntheticQueuedBody ≠ a.toRespBody) := by
  refine ⟨rfl, rfl, rfl, fun a => rfl, fun a h => ?_⟩
  have hids := congrArg RespBody.ackId h
  simp [syntheticQueuedBody, Ack.toRespBody] at hids

/-- C4 (witness): the amended theorem at a concrete undeliverable POST. -/
theorem C4_synthetic_queued_shape_witness :
    (handleStatusPost .netFail none "/api/status" 1 0 []).1 = ⟨202, syntheticQueuedBody⟩ ∧
    isAckShape syntheticQueuedBody = false := by
  have h := C4_synthetic_queued_shape none "/api/status" 1 0 []
  exact ⟨h.1, h.2.2.1⟩

/-- C6: the service worker queues a status submission only when the fetch
itself rejects.  Whenever the server answers — with any status code,
including 4xx/5xx — the response is returned unmodified and the store is
untouched; on network failure the parsed body and target url are enqueued
(appended when the generated key is fresh) and the synthetic 202 is
returned. -/
theorem C6_queue_only_on_network_failure (r : HttpResp) (reqBody : Option StatusBody)
    (url : String) (fid : Nat) (now : Int) (s : QueueStore) :
    handleStatusPost (.resp r) reqBody url fid now s = (r, s) ∧
    (handleStatusPost .netFail reqBody url fid now s).1 = ⟨202, syntheticQueuedBody⟩ ∧
    (handleStatusPost .netFail reqBody url fid now s).2 = enqueue reqBody url fid now s ∧
    ((∀ x ∈ s, x.id ≠ fid) →
      (handleStatusPost .netFail reqBody url fid now s).2 =
        s ++ [{ id := fid, body := reqBody, url := url, createdAt := now }]) := by
  refine ⟨rfl, rfl, rfl, fun hfresh => ?_⟩
  have hany : s.any (fun x => x.id == fid) = false := by
    rw [List.any_eq_false]
    intro x hx
    simp [hfresh x hx]
  simp [handleStatusPost, enqueue, idbPut, hany]

/-- C6 (witness): a live 500 response passes through unqueued, and a network
failure on the empty store enqueues exactly the submitted record. -/
theorem C6_queue_only_on_network_failure_witness :
    handleStatusPost (.resp ⟨500, syntheticQueuedBody⟩) none "/api/status" 7 3 [] =
      (⟨500, syntheticQueuedBody⟩, []) ∧
    (handleStatusPost .netFail none "/api/status" 7 3 []).2 =
      [{ id := 7, body := none, url := "/api/status", createdAt := 3 }] := by
  have h := C6_queue_only_on_network_failure ⟨500, syntheticQueuedBody⟩ none "/api/status" 7 3 []
  exact ⟨h.1, by simpa using h.2.2.2 (by simp)⟩

/-- C7: in one replay pass every queued record is attempted exactly once (in
key order, with its original url and body — so the failure of one record
never prevents the others from being attempted), and the pass removes from
the store exactly the records whose redelivery got a 2xx response: the
remaining store is the non-2xx records, in place. -/
theorem C7_remove_iff_2xx (deliver : QueueRecord → FetchOutcome) (s : QueueStore)
    (hids : (s.map QueueRecord.id).Nodup) :
    (flushQueue deliver s).1 = s.filter (fun r => !(deliveredOk deliver r)) ∧
    (flushQueue deliver s).2 = (idbGetAll s).map (fun r => (r.url, r.body)) := by
  constructor
  · unfold flushQueue
    rw [flush_store_aux]
    apply List.filter_congr
    intro x hx
    have hiff : (idbGetAll s).any (fun r => deliveredOk deliver r && r.id == x.id) =
        deliveredOk deliver x := by
      by_cases hok : deliveredOk deliver x = true
      · rw [hok]
        rw [List.any_eq_true]
        exact ⟨x, ((List.perm_insertionSort QueueRecord.keyLe s).mem_iff).mpr hx,
          by simp [hok]⟩
      · rw [Bool.eq_false_iff.mpr hok]
        rw [List.any_eq_false]
        intro y hy
        have hys : y ∈ s := ((List.perm_insertionSort QueueRecord.keyLe s).mem_iff).mp hy
        intro hcon
        simp only [Bool.and_eq_true] at hcon
        obtain ⟨hokY, hidY⟩ := hcon
        have : y = x := List.inj_on_of_nodup_map hids hys hx (by simpa using hidY)
        rw [this] at hokY
        exact hok hokY
    rw [hiff]
  · unfold flushQueue
    rw [flush_attempts_aux]
    simp

/-- C7 (witness): on the two-record store, the successful record is removed,
the failed one stays, and both were attempted. -/
theorem C7_remove_iff_2xx_witness :
    (flushQueue mixedDeliver twoRecordStore).1 =
      [{ id := 2, body := some lat91Body, url := "/api/status", createdAt := 2 }] ∧
    (flushQueue mixedDeliver twoRecordStore).2.length = 2 := by
  have h := C7_remove_iff_2xx mixedDeliver twoRecordStore (by decide)
  refine ⟨?_, ?_⟩
  · rw [h.1]
    decide
  · rw [h.2]
    decide

/-- C8: when a status submission with parsed JSON body `p` fails delivery
and is enqueued, the store afterwards holds a record carrying exactly `p`
and the original target url, and any later replay pass POSTs exactly that
pair — the enqueue→replay round trip preserves the submitted body field for
field. -/
theorem C8_enqueue_replay_round_trip (p : StatusBody) (url : String) (fid : Nat)
    (now : Int) (s : QueueStore) (deliver : QueueRecord → FetchOutcome) :
    ∃ rec ∈ (handleStatusPost .netFail (some p) url fid now s).2,
      rec.body = some p ∧ rec.url = url ∧
      (rec.url, rec.body) ∈
        (flushQueue deliver (handleStatusPost .netFail (some p) url fid now s).2).2 := by
  refine ⟨⟨fid, some p, url, now⟩, mem_idbPut_self _ _, rfl, rfl, ?_⟩
  unfold flushQueue
  rw [flush_attempts_aux]
  rw [List.nil_append]
  exact List.mem_map_of_mem _
    (((List.perm_insertionSort QueueRecord.keyLe _).mem_iff).mpr (mem_idbPut_self _ _))

/-- Characterization of a successful POST `/api/status`: the returned
acknowledgement echoes the parsed (note-trimmed) submission fields, and the
appended row carries the `|| null`-coerced columns. -/
theorem postStatus_created (st : ServerState) (b : StatusBody) (sid aid : String)
    (now : Int) (ack : Ack)
    (h : (postStatus st b sid aid now).1 = .created ack) :
    ack = ⟨aid, now, false, sid,
      ⟨b.userId, b.status, b.note.map jsTrim, now, b.location, b.batteryPct⟩⟩ ∧
    (postStatus st b sid aid now).2.statuses = st.statuses ++
      [⟨sid, b.userId, b.circleId, b.status,
        jsNumOrNull (b.location.map Location.lat),
        jsNumOrNull (b.location.map Location.lng),
        jsNumOrNull (b.location.bind Location.accuracy),
        jsStrOrNull (b.note.map jsTrim),
        jsNumOrNull b.batteryPct, now⟩] := by
  unfold postStatus at h ⊢
  cases heq : parseStatusBody b with
  | none =>
    simp only [heq] at h
    exact absurd h (by simp)
  | some p =>
    have hp : p = { b with note := b.note.map jsTrim } := by
      unfold parseStatusBody at heq
      split at heq
      · injection heq with h3
        exact h3.symm
      · exact absurd heq (by simp)
    subst hp
    simp only [heq] at h ⊢
    by_cases hm : isMember st b.circleId b.userId = true
    · simp only [hm, if_true] at h ⊢
      refine ⟨?_, by simp⟩
      injection h with h2
      exact h2.symm
    · simp only [hm, if_false] at h
      simp at h

/-- C10: on a successful status submission, the insert coerces falsy fields
to null — battery 0, latitude 0 and longitude 0 are stored as null, and a
note that trims to the empty string is stored as null — while the
acknowledgement's `entry` echoes the submitted values themselves (battery
`0`, the location object with its zero component, the trimmed note `""`). -/
theorem C10_falsy_fields_coerced (st : ServerState) (b : StatusBody) (sid aid : String)
    (now : Int) (ack : Ack)
    (h : (postStatus st b sid aid now).1 = .created ack) :
    ∃ row : StatusRow,
      (postStatus st b sid aid now).2.statuses = st.statuses ++ [row] ∧
      (b.batteryPct = some 0 → row.batteryPct = none ∧ ack.entry.batteryPct = some 0) ∧
      (∀ loc : Location, b.location = some loc →
        ack.entry.location = some loc ∧
        (loc.lat = 0 → row.lat = none) ∧ (loc.lng = 0 → row.lng = none)) ∧
      (∀ s0 : String, b.note = some s0 → jsTrim s0 = "" →
        row.note = none ∧ ack.entry.note = some "") := by
  obtain ⟨hack, hrow⟩ := postStatus_created st b sid aid now ack h
  subst hack
  refine ⟨_, hrow, ?_, ?_, ?_⟩
  · intro hb
    constructor
    · show jsNumOrNull b.batteryPct = none
      simp [hb, jsNumOrNull]
    · simpa using hb
  · intro loc hloc
    refine ⟨by simpa using hloc, ?_, ?_⟩
    · intro h0
      show jsNumOrNull (b.location.map Location.lat) = none
      simp [hloc, h0, jsNumOrNull]
    · intro h0
      show jsNumOrNull (b.location.map Location.lng) = none
      simp [hloc, h0, jsNumOrNull]
  · intro s0 hs0 htrim
    constructor
    · show jsStrOrNull (b.note.map jsTrim) = none
      simp [hs0, htrim, jsStrOrNull]
    · show b.note.map jsTrim = some ""
      simp [hs0, htrim]

/-- C10 (witness): the falsy submission is accepted; the stored row has null
battery, latitude and note, while the acknowledgement still echoes battery 0,
the zero location and the trimmed empty note. -/
theorem C10_falsy_fields_coerced_witness :
    (postStatus oneMemberState falsyBody "s9" "a9" 7).1 = .created falsyAck ∧
    ∃ row : StatusRow,
      (postStatus oneMemberState falsyBody "s9" "a9" 7).2.statuses =
        oneMemberState.statuses ++ [row] ∧
      row.batteryPct = none ∧ row.lat = none ∧ row.note = none ∧
      falsyAck.entry.batteryPct = some 0 ∧ falsyAck.entry.note = some "" := by
  have hcr : (postStatus oneMemberState falsyBody "s9" "a9" 7).1 = .created falsyAck := by
    decide
  obtain ⟨row, hrow, hb, hloc, hnote⟩ :=
    C10_falsy_fields_coerced oneMemberState falsyBody "s9" "a9" 7 falsyAck hcr
  exact ⟨hcr, row, hrow, (hb rfl).1, (hloc _ rfl).2.1 rfl,
    (hnote " " rfl (by decide)).1, (hb rfl).2, (hnote " " rfl (by decide)).2⟩


end Kinship
